import Mathlib

/-!
Verification of the concurrent rate-limited fetch orchestrator of the
qr-code repository (source: src/backend/api/met_client.py).

The development shallowly embeds the Python module:

* Pure data flow (listing fetcher, detail fetcher, partition orchestrator,
  global orchestrator) is embedded as Lean functions over response oracles:
  the HTTP layer is a function from identifiers to response values, and each
  Python function becomes a Lean function of that oracle.  The asyncio
  gather calls return results in task-submission order, so the embedded
  functions compute the same sequences the Python code produces.
* The RateLimiter (Admission Gate) is embedded twice, at the two levels the
  claims need: a transition system for the semaphore discipline
  (acquire / release with a free-permit counter), and a timing model of the
  atomic sections of RateLimiter.acquire for the single-threaded
  cooperative asyncio scheduler, with times in milliseconds.
* Python exceptions are modelled with an explicit result type; the
  try / except / finally structure of the two fetchers is rendered by a
  gating wrapper that records the acquire / release events of every path.
-/

namespace MetClient

/-- Source constant MAX_CONCURRENT_REQUESTS = 5 (met_client.py line 12). -/
def MAX_CONCURRENT_REQUESTS : Nat := 5

/-- Source constant DELAY_BETWEEN_REQUESTS = 0.3 seconds (met_client.py
line 13), modelled in milliseconds.  All times in this file are in ms. -/
def DELAY_BETWEEN_REQUESTS : Nat := 300

/-- Scalar JSON values as they appear in a parsed response object.
The client never inspects the values it copies out of a payload (it only
moves them between dictionaries), so structured values (arrays, nested
objects) are abstracted to scalar tokens; this loses nothing any claim
depends on.  jnull is JSON null, i.e. Python None stored under a key,
which Python dict.get distinguishes from a missing key. -/
inductive JVal where
  | jnull
  | jbool (b : Bool)
  | jint (n : Int)
  | jstr (s : String)
  deriving DecidableEq, Repr

/-- A parsed JSON object (a Python dict): association list from key to
value, first occurrence wins, mirroring unique-key JSON dicts. -/
abbrev RawData := List (String × JVal)

/-- Python dict.get(key): the stored value when the key is present
(possibly JVal.jnull for a stored None), Option.none when missing. -/
def jget (d : RawData) (k : String) : Option JVal :=
  (d.find? (fun kv => kv.1 == k)).map Prod.snd

/-- A value stored in the obj_info dictionary built by
fetch_department_objects: either a value copied from the payload via
dict.get (Option.none is Python None for a missing key), or the
pd.Timestamp.now() value stored under synced_at. -/
inductive FieldVal where
  | jv (v : Option JVal)
  | time (t : Nat)
  deriving DecidableEq, Repr

/-- The obj_info record built for one successfully fetched item
(met_client.py lines 170-191): key / value pairs in source order. -/
abbrev RawRecord := List (String × FieldVal)

/-- The obj_info dictionary literal of fetch_department_objects
(met_client.py lines 170-191), key for key and in source order.  Every
value is obj_details.get of the corresponding camelCase payload key;
is_public_domain uses the default False; synced_at is pd.Timestamp.now(),
passed in as the parameter now. -/
def extract_record (now : Nat) (d : RawData) : RawRecord :=
  [("met_object_id", FieldVal.jv (jget d "objectID")),
   ("title", FieldVal.jv (jget d "title")),
   ("artist_display_name", FieldVal.jv (jget d "artistDisplayName")),
   ("artist_display_bio", FieldVal.jv (jget d "artistDisplayBio")),
   ("artist_nationality", FieldVal.jv (jget d "artistNationality")),
   ("artist_gender", FieldVal.jv (jget d "artistGender")),
   ("object_date", FieldVal.jv (jget d "objectDate")),
   ("object_begin_date", FieldVal.jv (jget d "objectBeginDate")),
   ("object_end_date", FieldVal.jv (jget d "objectEndDate")),
   ("culture", FieldVal.jv (jget d "culture")),
   ("period", FieldVal.jv (jget d "period")),
   ("dynasty", FieldVal.jv (jget d "dynasty")),
   ("medium", FieldVal.jv (jget d "medium")),
   ("dimensions", FieldVal.jv (jget d "dimensions")),
   ("department", FieldVal.jv (jget d "department")),
   ("classification", FieldVal.jv (jget d "classification")),
   ("object_name", FieldVal.jv (jget d "objectName")),
   ("primary_image", FieldVal.jv (jget d "primaryImage")),
   ("is_public_domain",
     FieldVal.jv (some ((jget d "isPublicDomain").getD (JVal.jbool false)))),
   ("constituents", FieldVal.jv (jget d "constituents")),
   ("synced_at", FieldVal.time now)]

/-- The key list of the obj_info dictionary, in source order
(met_client.py lines 170-191). -/
def met_record_fields : List String :=
  ["met_object_id", "title", "artist_display_name", "artist_display_bio",
   "artist_nationality", "artist_gender", "object_date",
   "object_begin_date", "object_end_date", "culture", "period", "dynasty",
   "medium", "dimensions", "department", "classification", "object_name",
   "primary_image", "is_public_domain", "constituents", "synced_at"]

/-- Modelled from the spec, section 6: the exact field names the spec says
a RawRecord carries.  This definition follows the spec words, for
comparison against the record the source actually builds. -/
def spec_section6_fields : List String :=
  ["objectID", "title", "artistDisplayName", "artistDisplayBio",
   "artistNationality", "artistGender", "objectDate", "objectBeginDate",
   "objectEndDate", "culture", "period", "dynasty", "medium", "dimensions",
   "department", "classification", "objectName", "primaryImage",
   "isPublicDomain", "constituents"]

/-- Outcome of a Python computation: a value, or a raised exception
(caught by the except clauses of the fetchers). -/
inductive PyResult (α : Type) where
  | val (a : α)
  | exc
  deriving DecidableEq

/-- Gate events recorded by the fetchers: rate_limiter.acquire() and
rate_limiter.release(). -/
inductive GateEvent where
  | acq
  | rel
  deriving DecidableEq

/-- The remote response seen by get_object_details for one item id:
either a transport failure at session.get (error), or a response with a
status code and, when the body is read, the parse result of
response.json() — some d for a JSON object d, none when json() raises
(malformed payload, wrong content type, or a non-object value). -/
inductive DetailResponse where
  | error
  | ok (status : Nat) (body : Option RawData)
  deriving DecidableEq

/-- The remote response seen by get_object_ids for one department:
either a transport failure, or a response with a status code and the id
list extracted from the payload — some l when the parsed body carries
"objectIDs" as a list l, none when json() raises or the objectIDs value
is unusable (the source reaches its except clause on those paths; a
payload simply missing the key yields the [] default, output-identical). -/
inductive ListResponse where
  | error
  | ok (status : Nat) (ids : Option (List Int))
  deriving DecidableEq

/-- The try-block body of get_object_details (met_client.py lines
121-130): on transport failure the exception propagates to except; on a
response, status 200 reads and parses the body (a parse failure raises),
any other status returns None. -/
def detail_body (r : DetailResponse) : PyResult (Option RawData) :=
  match r with
  | DetailResponse.error => PyResult.exc
  | DetailResponse.ok status body =>
      if status = 200 then
        match body with
        | some d => PyResult.val (some d)
        | none => PyResult.exc
      else PyResult.val none

/-- The acquire / try / except / finally frame of get_object_details
(met_client.py lines 119-132): acquire first; the except clause turns any
exception into None; finally releases on every path.  Returns the Python
return value together with the gate events of the call. -/
def get_object_details_run (r : DetailResponse) :
    Option RawData × List GateEvent :=
  match detail_body r with
  | PyResult.val v => (v, [GateEvent.acq, GateEvent.rel])
  | PyResult.exc => (none, [GateEvent.acq, GateEvent.rel])

/-- The value get_object_details returns to its caller. -/
def get_object_details (r : DetailResponse) : Option RawData :=
  (get_object_details_run r).1

/-- The try-block body of get_object_ids (met_client.py lines 90-95):
transport failure or an unusable payload raises; otherwise the objectIDs
list is returned. -/
def ids_body (r : ListResponse) : PyResult (List Int) :=
  match r with
  | ListResponse.error => PyResult.exc
  | ListResponse.ok _ ids =>
      match ids with
      | some l => PyResult.val l
      | none => PyResult.exc

/-- The acquire / try / except / finally frame of get_object_ids
(met_client.py lines 89-99): the except clause returns []; finally
releases on every path.  Note the source never reads response.status
here. -/
def get_object_ids_run (r : ListResponse) : List Int × List GateEvent :=
  match ids_body r with
  | PyResult.val v => (v, [GateEvent.acq, GateEvent.rel])
  | PyResult.exc => ([], [GateEvent.acq, GateEvent.rel])

/-- The value get_object_ids returns to its caller. -/
def get_object_ids (r : ListResponse) : List Int :=
  (get_object_ids_run r).1

/-- The tasks list of fetch_department_objects (met_client.py lines
156-166): object_ids is the listing response for the department, sliced
by object_ids[:limit], then one get_object_details task is appended per
retained id, in listing order. -/
def department_tasks (listResp : Int → ListResponse) (dept : Int)
    (limit : Nat) : List Int :=
  ((get_object_ids (listResp dept)).take limit).foldl
    (fun acc i => acc ++ [i]) []

/-- The results of asyncio.gather(tasks) in fetch_department_objects
(met_client.py line 166): gather returns the task results in submission
order, so this is the detail-fetch result for each retained id in
listing order. -/
def department_results (listResp : Int → ListResponse)
    (detailResp : Int → DetailResponse) (dept : Int) (limit : Nat) :
    List (Option RawData) :=
  (department_tasks listResp dept limit).map
    (fun i => get_object_details (detailResp i))

/-- fetch_department_objects (met_client.py lines 136-197): the
objects_data accumulation loop over the gathered results.  The source
guard is the Python truthiness test if obj_details: — false for None and
for an empty dict — so a record is appended exactly for non-empty
returned dicts. -/
def fetch_department_objects (listResp : Int → ListResponse)
    (detailResp : Int → DetailResponse) (dept : Int) (limit : Nat)
    (now : Nat) : List RawRecord :=
  (department_results listResp detailResp dept limit).foldl
    (fun acc r =>
      match r with
      | some d => if d.isEmpty then acc else acc ++ [extract_record now d]
      | none => acc) []

/-- The per-result record decision of the objects_data loop, as an
Option: some record when the result passes the truthiness guard, none
otherwise. -/
def collect_record (now : Nat) (r : Option RawData) : Option RawRecord :=
  match r with
  | some d => if d.isEmpty then none else some (extract_record now d)
  | none => none

/-- fetch_all_departments (met_client.py lines 200-229): one RateLimiter
is constructed for the whole run and the same instance is passed to every
fetch_department_objects call (it only shapes timing, not values, so the
value model does not thread it); one task per department id is appended in
input order, asyncio.gather returns their results in that order, and the
all_objects loop extends the accumulator with each department's records in
that same order. -/
def fetch_all_departments (listResp : Int → ListResponse)
    (detailResp : Int → DetailResponse) (depts : List Int) (limit : Nat)
    (now : Nat) : List RawRecord :=
  let tasks := depts.foldl (fun acc d => acc ++ [d]) []
  let results := tasks.map
    (fun d => fetch_department_objects listResp detailResp d limit now)
  results.foldl (fun acc r => acc ++ r) []

/-- Phase of one fetch task with respect to the Admission Gate: before
acquire (or blocked in it), holding a permit during the guarded remote
call, or finished after the finally-block release. -/
inductive FetchPhase where
  | idle
  | holding
  | finished
  deriving DecidableEq

/-- State of the shared gate and its client tasks: the free-permit count
of the asyncio.Semaphore and the phase of each task. -/
structure GateSystem where
  sem : Nat
  tasks : List FetchPhase
  deriving DecidableEq

/-- Whether a task currently holds a permit. -/
def isHolding : FetchPhase → Bool
  | FetchPhase.holding => true
  | _ => false

/-- Number of outstanding permits: tasks that have acquired and not yet
released. -/
def outstanding (s : GateSystem) : Nat :=
  s.tasks.countP isHolding

/-- The semaphore discipline of the fetchers (met_client.py lines 47, 63,
89-99, 119-132): a task acquires only when a free permit exists
(asyncio.Semaphore.acquire suspends otherwise) and the finally block
releases exactly once after the guarded call, on success and failure
paths alike. -/
inductive GateStep : GateSystem → GateSystem → Prop where
  | acquire (s : GateSystem) (i : Nat)
      (hidle : s.tasks[i]? = some FetchPhase.idle) (hsem : 0 < s.sem) :
      GateStep s ⟨s.sem - 1, s.tasks.set i FetchPhase.holding⟩
  | release (s : GateSystem) (i : Nat)
      (hhold : s.tasks[i]? = some FetchPhase.holding) :
      GateStep s ⟨s.sem + 1, s.tasks.set i FetchPhase.finished⟩

/-- Reachability under the gate discipline. -/
def GateReach : GateSystem → GateSystem → Prop :=
  Relation.ReflTransGen GateStep

/-- Initial state of a run: the RateLimiter is constructed with
max_concurrent free permits (met_client.py line 37) and no task has
acquired yet. -/
def initGate (maxConc n : Nat) : GateSystem :=
  ⟨maxConc, List.replicate n FetchPhase.idle⟩

/-- Result of the atomic section of RateLimiter.acquire after the
semaphore grants (met_client.py lines 49-55): either granted immediately
(last_request_time is then set to the current time with no intervening
suspension), or the task computes its sleep from the last_request_time it
read and suspends; after the sleep it sets last_request_time to its wake
time and is granted, without re-checking. -/
inductive AcqResult where
  | grantNow
  | sleepUntil (wake : Nat)
  deriving DecidableEq

/-- The time check of RateLimiter.acquire (met_client.py lines 49-53),
evaluated atomically at loop time now with the current
last_request_time: time_since_last = now - last; if it is below the
delay, sleep delay - time_since_last, waking at
now + (delay - (now - last)). -/
def acquire_check (now last delay : Nat) : AcqResult :=
  if now - last < delay then
    AcqResult.sleepUntil (now + (delay - (now - last)))
  else AcqResult.grantNow

/-- Grant times of n tasks that all call acquire() at loop time t0 with n
within the semaphore capacity, under the asyncio scheduler: the tasks run
their atomic check sequentially in FIFO order at time t0 (the uncontended
semaphore acquire does not suspend).  A task granted immediately updates
last_request_time to t0; a sleeping task leaves it unchanged until its
wake time and is granted at that wake time regardless of later updates,
because the source never re-checks after sleeping.  The returned list
holds each task's grant time in task order. -/
def simultaneous_acquire_grants (t0 delay n : Nat) : List Nat :=
  ((List.range n).foldl
    (fun (acc : Nat × List Nat) _ =>
      match acquire_check t0 acc.1 delay with
      | AcqResult.grantNow => (t0, acc.2 ++ [t0])
      | AcqResult.sleepUntil w => (acc.1, acc.2 ++ [w]))
    (0, [])).2

/-! Helper lemmas. -/

theorem foldl_append_singleton {α : Type} (l : List α) :
    ∀ acc : List α, l.foldl (fun a x => a ++ [x]) acc = acc ++ l := by
  induction l with
  | nil => intro acc; simp
  | cons a t ih => intro acc; simp [List.foldl_cons, ih]

theorem foldl_append_flatten {α : Type} (ls : List (List α)) :
    ∀ acc : List α, ls.foldl (fun a r => a ++ r) acc = acc ++ ls.flatten := by
  induction ls with
  | nil => intro acc; simp
  | cons a t ih => intro acc; simp [List.foldl_cons, ih]

theorem collect_foldl (now : Nat) (l : List (Option RawData)) :
    ∀ acc : List RawRecord,
      l.foldl
        (fun acc r =>
          match r with
          | some d =>
              if d.isEmpty then acc else acc ++ [extract_record now d]
          | none => acc) acc
      = acc ++ l.filterMap (collect_record now) := by
  induction l with
  | nil => intro acc; simp
  | cons r t ih =>
      intro acc
      rw [List.foldl_cons, ih]
      cases r with
      | none => simp [collect_record]
      | some d =>
          cases hd : d.isEmpty with
          | true => simp [collect_record, hd]
          | false => simp [collect_record, hd]

theorem fetch_department_objects_eq (listResp : Int → ListResponse)
    (detailResp : Int → DetailResponse) (dept : Int) (limit : Nat)
    (now : Nat) :
    fetch_department_objects listResp detailResp dept limit now
    = (department_results listResp detailResp dept limit).filterMap
        (collect_record now) := by
  unfold fetch_department_objects
  rw [collect_foldl]
  simp

theorem filterMap_collect_length (now : Nat) :
    ∀ l : List (Option RawData),
      (∀ r ∈ l, ∀ d, r = some d → d.isEmpty = false) →
      (l.filterMap (collect_record now)).length
        + l.countP (fun r => r.isNone) = l.length := by
  intro l
  induction l with
  | nil => intro _; simp
  | cons r t ih =>
      intro h
      have ht := ih (fun r hr => h r (List.mem_cons_of_mem _ hr))
      cases r with
      | none =>
          simp [List.filterMap_cons, collect_record, List.countP_cons]
          omega
      | some d =>
          have hd : d.isEmpty = false :=
            h (some d) (List.mem_cons_self _ _) d rfl
          simp [List.filterMap_cons, collect_record, hd, List.countP_cons]
          omega

theorem countP_set_generic (p : FetchPhase → Bool) :
    ∀ (l : List FetchPhase) (i : Nat) (x y : FetchPhase),
      l[i]? = some y →
      (l.set i x).countP p + (if p y then 1 else 0)
        = l.countP p + (if p x then 1 else 0) := by
  intro l
  induction l with
  | nil => intro i x y h; simp at h
  | cons a t ih =>
      intro i x y h
      cases i with
      | zero =>
          simp only [List.getElem?_cons_zero, Option.some.injEq] at h
          subst h
          simp only [List.set_cons_zero, List.countP_cons]
          omega
      | succ j =>
          simp only [List.getElem?_cons_succ] at h
          have := ih j x y h
          simp only [List.set_cons_succ, List.countP_cons]
          omega

theorem gate_step_inv {s t : GateSystem} (m : Nat) (hstep : GateStep s t)
    (hinv : s.sem + outstanding s = m) : t.sem + outstanding t = m := by
  cases hstep with
  | acquire i hidle hsem =>
      have hc := countP_set_generic isHolding
        s.tasks i FetchPhase.holding FetchPhase.idle hidle
      simp only [isHolding, if_pos, if_neg, Bool.false_eq_true,
        if_false, if_true] at hc
      simp only [outstanding] at hinv ⊢
      omega
  | release i hhold =>
      have hc := countP_set_generic isHolding
        s.tasks i FetchPhase.finished FetchPhase.holding hhold
      simp only [isHolding, if_pos, if_neg, Bool.false_eq_true,
        if_false, if_true] at hc
      simp only [outstanding] at hinv ⊢
      omega

theorem gate_reach_inv {s0 s : GateSystem} (m : Nat)
    (h : GateReach s0 s) (hinv : s0.sem + outstanding s0 = m) :
    s.sem + outstanding s = m := by
  induction h with
  | refl => exact hinv
  | tail _ hstep ih => exact gate_step_inv m hstep ih

theorem fetch_all_eq_flatten (listResp : Int → ListResponse)
    (detailResp : Int → DetailResponse) (depts : List Int) (limit : Nat)
    (now : Nat) :
    fetch_all_departments listResp detailResp depts limit now
    = (depts.map
        (fun d => fetch_department_objects listResp detailResp d limit now)).flatten := by
  unfold fetch_all_departments
  rw [foldl_append_singleton, foldl_append_flatten]
  simp

theorem fetch_department_congr (l1 l2 : Int → ListResponse)
    (detailResp : Int → DetailResponse) (dept : Int) (limit : Nat)
    (now : Nat) (h : l1 dept = l2 dept) :
    fetch_department_objects l1 detailResp dept limit now
    = fetch_department_objects l2 detailResp dept limit now := by
  unfold fetch_department_objects department_results department_tasks
  rw [h]

theorem fetch_department_listing_error (listResp : Int → ListResponse)
    (detailResp : Int → DetailResponse) (dept : Int) (limit : Nat)
    (now : Nat) (h : listResp dept = ListResponse.error) :
    fetch_department_objects listResp detailResp dept limit now = [] := by
  unfold fetch_department_objects department_results department_tasks
  rw [h]
  simp [get_object_ids, get_object_ids_run, ids_body]

/-! Claim theorems. -/

/-- C1 (code bug): the admission gate does not enforce the global minimum
spacing between permit grants under concurrency.  Three tasks call
acquire() at loop time 1000 ms (configured delay 300 ms, within the
semaphore capacity of 5): the first is granted at 1000 ms and the second
and third both read last_request_time = 1000 before sleeping, sleep the
same 300 ms, never re-check, and are both granted at 1300 ms — two
consecutive grants with gap 0 < 300 ms. -/
theorem rate_limiter_spacing_violation :
    simultaneous_acquire_grants 1000 DELAY_BETWEEN_REQUESTS 3
      = [1000, 1300, 1300]
    ∧ 3 ≤ MAX_CONCURRENT_REQUESTS
    ∧ 1300 - 1300 < DELAY_BETWEEN_REQUESTS := by
  refine ⟨by decide, by decide, by decide⟩

/-- C2: at every reachable state of the gate discipline the outstanding
permits never exceed the configured maximum concurrency, and both
fetchers produce exactly one acquire followed by exactly one release on
every exit path (success, non-success status, and exception alike). -/
theorem admission_gate_bound_and_release :
    (∀ (maxConc n : Nat) (s : GateSystem),
        GateReach (initGate maxConc n) s → outstanding s ≤ maxConc)
    ∧ (∀ r : DetailResponse,
        (get_object_details_run r).2 = [GateEvent.acq, GateEvent.rel])
    ∧ (∀ r : ListResponse,
        (get_object_ids_run r).2 = [GateEvent.acq, GateEvent.rel]) := by
  refine ⟨?_, ?_, ?_⟩
  · intro maxConc n s h
    have hrep : ∀ k : Nat,
        (List.replicate k FetchPhase.idle).countP isHolding = 0 := by
      intro k
      induction k with
      | zero => rfl
      | succ k ih => simp [List.replicate_succ, List.countP_cons, isHolding, ih]
    have h0 : (initGate maxConc n).sem + outstanding (initGate maxConc n)
        = maxConc := by
      simp [initGate, outstanding, hrep]
    have := gate_reach_inv maxConc h h0
    omega
  · intro r
    cases hb : detail_body r <;> simp [get_object_details_run, hb]
  · intro r
    cases hb : ids_body r <;> simp [get_object_ids_run, hb]

/-- C2 witness: from the initial state with capacity 5 and two tasks, one
acquire step reaches a state whose outstanding count is within the
bound. -/
theorem admission_gate_bound_and_release_witness :
    outstanding ⟨4, [FetchPhase.holding, FetchPhase.idle]⟩ ≤ 5 :=
  admission_gate_bound_and_release.1 5 2
    ⟨4, [FetchPhase.holding, FetchPhase.idle]⟩
    (Relation.ReflTransGen.single
      (GateStep.acquire (initGate 5 2) 0 (by decide) (by decide)))

/-- C3 (amended): the Item Detail Fetcher returns Found(d) exactly when
the remote response has success status 200 and its payload parses as the
JSON object d; on any other status, on transport error, and on a success
response whose payload fails to parse it returns Absent, and (being a
total function of the response) never raises upward. -/
theorem get_object_details_found_iff :
    ∀ (r : DetailResponse) (d : RawData),
      get_object_details r = some d ↔ r = DetailResponse.ok 200 (some d) := by
  intro r d
  constructor
  · intro h
    cases r with
    | error =>
        simp [get_object_details, get_object_details_run, detail_body] at h
    | ok s b =>
        by_cases hs : s = 200
        · subst hs
          cases b with
          | none =>
              simp [get_object_details, get_object_details_run,
                detail_body] at h
          | some d2 =>
              simp [get_object_details, get_object_details_run,
                detail_body] at h
              rw [h]
        · simp [get_object_details, get_object_details_run, detail_body,
            hs] at h
  · intro h
    subst h
    rfl

/-- C3 counterexample: a response with the success status whose payload
fails to parse yields Absent, so the claim that Found is returned exactly
when the status is the success status is false. -/
theorem detail_success_status_absent_cex :
    ¬ (∀ r : DetailResponse,
        (∃ b, r = DetailResponse.ok 200 b) →
          (get_object_details r).isSome = true) := by
  intro h
  have := h (DetailResponse.ok 200 none) ⟨none, rfl⟩
  simp [get_object_details, get_object_details_run, detail_body] at this

/-- C4 (amended): the Partition Listing Fetcher never faults: it returns
the empty sequence on any transport error and whenever the payload yields
no usable id list; but it never inspects the remote status, so the result
is status-independent and a non-success response whose payload carries an
id list returns that list. -/
theorem get_object_ids_error_policy :
    get_object_ids ListResponse.error = []
    ∧ (∀ s : Nat, get_object_ids (ListResponse.ok s none) = [])
    ∧ (∀ (s t : Nat) (b : Option (List Int)),
        get_object_ids (ListResponse.ok s b)
          = get_object_ids (ListResponse.ok t b)) := by
  refine ⟨rfl, fun s => rfl, fun s t b => ?_⟩
  cases b <;> rfl

/-- C4 counterexample: a non-success status (500) whose payload carries
an id list returns that list, not the empty sequence, so the claim that
any non-success remote status yields an empty sequence is false. -/
theorem listing_status_ignored_cex :
    get_object_ids (ListResponse.ok 500 (some [1, 2, 3])) = [1, 2, 3]
    ∧ ([1, 2, 3] : List Int) ≠ []
    ∧ (500 : Nat) ≠ 200 :=
  ⟨rfl, by decide, by decide⟩

/-- C5: the Partition Orchestrator truncates the listing to its first cap
ids in listing order (no re-sorting), launches exactly one detail-fetch
task per retained id — min(cap, listed) tasks — and emits at most
min(cap, listed) records; concretely, a 25-id listing with cap 20 yields
exactly 20 detail-fetch attempts. -/
theorem partition_cap_enforcement :
    (∀ (listResp : Int → ListResponse) (detailResp : Int → DetailResponse)
        (dept : Int) (limit now : Nat),
      department_tasks listResp dept limit
          = (get_object_ids (listResp dept)).take limit
      ∧ (department_tasks listResp dept limit).length
          = min limit (get_object_ids (listResp dept)).length
      ∧ (fetch_department_objects listResp detailResp dept limit now).length
          ≤ min limit (get_object_ids (listResp dept)).length)
    ∧ (department_tasks
        (fun _ => ListResponse.ok 200 (some ((List.range 25).map Int.ofNat)))
        0 20).length = 20 := by
  refine ⟨?_, by decide⟩
  intro lR dR dept limit now
  have htasks : department_tasks lR dept limit
      = (get_object_ids (lR dept)).take limit := by
    unfold department_tasks
    rw [foldl_append_singleton]
    simp
  refine ⟨htasks, ?_, ?_⟩
  · rw [htasks]
    exact List.length_take _ _
  · rw [fetch_department_objects_eq]
    calc ((department_results lR dR dept limit).filterMap
            (collect_record now)).length
        ≤ (department_results lR dR dept limit).length :=
          List.length_filterMap_le _ _
      _ = (department_tasks lR dept limit).length := by
          simp [department_results]
      _ = min limit (get_object_ids (lR dept)).length := by
          rw [htasks]
          exact List.length_take _ _

/-- C6 (amended): the Partition Orchestrator awaits all launched detail
fetches and keeps exactly the results that pass the source's truthiness
guard — Found records with a non-empty mapping; Absent results (and
Found results whose mapping is empty) are discarded silently.  When every
Found result carries a non-empty record and exactly one of the K fetches
is Absent, K−1 records are returned; the orchestrator is a total
function, so no exception crosses its boundary. -/
theorem fetch_department_isolation :
    ∀ (listResp : Int → ListResponse) (detailResp : Int → DetailResponse)
      (dept : Int) (limit now : Nat),
      (∀ r ∈ department_results listResp detailResp dept limit,
        r ≠ some ([] : RawData)) →
      (department_results listResp detailResp dept limit).countP
          (fun r => r.isNone) = 1 →
      (fetch_department_objects listResp detailResp dept limit now).length + 1
        = (department_results listResp detailResp dept limit).length := by
  intro lR dR dept limit now hqual hone
  have hqual2 : ∀ r ∈ department_results lR dR dept limit,
      ∀ d, r = some d → d.isEmpty = false := by
    intro r hr d hrd
    subst hrd
    have hne := hqual _ hr
    cases d with
    | nil => exact absurd rfl hne
    | cons a t => rfl
  rw [fetch_department_objects_eq]
  have := filterMap_collect_length now _ hqual2
  omega

/-- C6 witness: three ids, the middle detail fetch fails (transport
error), the other two return non-empty records: 2 = 3 − 1 records. -/
theorem fetch_department_isolation_witness :
    ((department_results (fun _ => ListResponse.ok 200 (some [1, 2, 3]))
        (fun i => if i = 2 then DetailResponse.error
          else DetailResponse.ok 200 (some [("title", JVal.jstr "x")]))
        9 3).countP (fun r => r.isNone) = 1)
    ∧ (fetch_department_objects (fun _ => ListResponse.ok 200 (some [1, 2, 3]))
        (fun i => if i = 2 then DetailResponse.error
          else DetailResponse.ok 200 (some [("title", JVal.jstr "x")]))
        9 3 0).length + 1
      = (department_results (fun _ => ListResponse.ok 200 (some [1, 2, 3]))
        (fun i => if i = 2 then DetailResponse.error
          else DetailResponse.ok 200 (some [("title", JVal.jstr "x")]))
        9 3).length :=
  ⟨by decide,
    fetch_department_isolation
      (fun _ => ListResponse.ok 200 (some [1, 2, 3]))
      (fun i => if i = 2 then DetailResponse.error
        else DetailResponse.ok 200 (some [("title", JVal.jstr "x")]))
      9 3 0 (by decide) (by decide)⟩

/-- C6 counterexample: among two detail fetches both return Found (one
with an empty record mapping), yet only one record is emitted, so the
claim that exactly the Found records are returned is false. -/
theorem found_empty_record_dropped_cex :
    (department_results (fun _ => ListResponse.ok 200 (some [10, 11]))
      (fun i => DetailResponse.ok 200
        (if i = 10 then some [] else some [("title", JVal.jstr "A")]))
      3 5).countP (fun r => r.isSome) = 2
    ∧ (fetch_department_objects (fun _ => ListResponse.ok 200 (some [10, 11]))
      (fun i => DetailResponse.ok 200
        (if i = 10 then some [] else some [("title", JVal.jstr "A")]))
      3 5 0).length = 1 :=
  ⟨by decide, by decide⟩

/-- C7: the Global Orchestrator returns exactly the concatenation of the
per-partition record sequences in partition-input order: the output is
grouped by partition and preserves the caller's partition ordering.  (The
single shared Admission Gate instance is constructed once in the source,
line 215, and passed to every call; it shapes only timing, which the gate
transition system models separately.) -/
theorem fetch_all_concatenation_order :
    ∀ (listResp : Int → ListResponse) (detailResp : Int → DetailResponse)
      (depts : List Int) (limit now : Nat),
      fetch_all_departments listResp detailResp depts limit now
      = (depts.map
          (fun d => fetch_department_objects listResp detailResp d limit now)).flatten :=
  fun lR dR depts limit now => fetch_all_eq_flatten lR dR depts limit now

/-- C8: partition independence — when partition pa's listing fetch fails
(transport error, yielding the empty sequence), partition pb's records
are unaffected and fully present, and the run completes with pb's full
contribution; the orchestrator is total, so its worst outcome is an empty
record list, never a fault. -/
theorem partition_independence :
    ∀ (listResp : Int → ListResponse) (detailResp : Int → DetailResponse)
      (pa pb : Int) (limit now : Nat),
      pa ≠ pb →
      fetch_all_departments
        (fun d => if d = pa then ListResponse.error else listResp d)
        detailResp [pa, pb] limit now
      = fetch_department_objects listResp detailResp pb limit now := by
  intro lR dR pa pb limit now hne
  rw [fetch_all_eq_flatten]
  simp only [List.map_cons, List.map_nil]
  have hpa : fetch_department_objects
      (fun d => if d = pa then ListResponse.error else lR d) dR pa limit now
      = [] :=
    fetch_department_listing_error _ _ _ _ _ (by simp)
  have hpb : fetch_department_objects
      (fun d => if d = pa then ListResponse.error else lR d) dR pb limit now
      = fetch_department_objects lR dR pb limit now :=
    fetch_department_congr _ _ _ _ _ _ (if_neg (Ne.symm hne))
  rw [List.flatten, List.flatten, hpa, hpb]
  simp

/-- C8 witness: the spec's concrete scenario shape — partitions 1 and 11,
partition 1's listing fails, partition 11 is fully present. -/
theorem partition_independence_witness :
    ((1 : Int) ≠ 11)
    ∧ fetch_all_departments
        (fun d => if d = 1 then ListResponse.error
          else ListResponse.ok 200 (some [5, 6]))
        (fun _ => DetailResponse.ok 200 (some [("title", JVal.jstr "t")]))
        [1, 11] 20 0
      = fetch_department_objects
          (fun _ => ListResponse.ok 200 (some [5, 6]))
          (fun _ => DetailResponse.ok 200 (some [("title", JVal.jstr "t")]))
          11 20 0 :=
  ⟨by decide,
    partition_independence
      (fun _ => ListResponse.ok 200 (some [5, 6]))
      (fun _ => DetailResponse.ok 200 (some [("title", JVal.jstr "t")]))
      1 11 20 0 (by decide)⟩

/-- C9 (amended): every record built by the core carries exactly 21
fields, in fixed order: snake_case renamings of the 20 fields the spec
names in section 6, plus an extra synced_at timestamp field added by the
source. -/
theorem record_fields_exact :
    ∀ (now : Nat) (d : RawData),
      (extract_record now d).map Prod.fst = met_record_fields
      ∧ met_record_fields.length = spec_section6_fields.length + 1 :=
  fun now d => ⟨rfl, by decide⟩

/-- C9 counterexample: the key set of a produced record is not the
section-6 field list — it contains the extra synced_at key, which the
spec's list lacks. -/
theorem record_fields_cex :
    (extract_record 0 []).map Prod.fst ≠ spec_section6_fields
    ∧ "synced_at" ∈ (extract_record 0 []).map Prod.fst
    ∧ "synced_at" ∉ spec_section6_fields :=
  ⟨by decide, by decide, by decide⟩

/-- C10 (amended): the record sequence of the Partition Orchestrator is
deterministic and equals the truncated id listing, in listing order,
restricted to the ids whose detail fetch passed the truthiness guard
(Found with a non-empty record mapping): gather returns results in
task-submission order and the collection loop keeps that order. -/
theorem department_order_deterministic :
    ∀ (listResp : Int → ListResponse) (detailResp : Int → DetailResponse)
      (dept : Int) (limit now : Nat),
      fetch_department_objects listResp detailResp dept limit now
      = ((get_object_ids (listResp dept)).take limit).filterMap
          (fun i => collect_record now (get_object_details (detailResp i))) := by
  intro lR dR dept limit now
  rw [fetch_department_objects_eq]
  unfold department_results department_tasks
  rw [foldl_append_singleton, List.nil_append, List.filterMap_map]
  rfl

/-- C10 counterexample: one listed id whose detail fetch returns Found
with an empty mapping: the listing restricted to Found items predicts one
record, but the orchestrator returns none, so the claim that the output
is the truncated listing restricted to Found items is false. -/
theorem order_restricted_found_cex :
    fetch_department_objects (fun _ => ListResponse.ok 200 (some [42]))
      (fun _ => DetailResponse.ok 200 (some ([] : RawData))) 7 20 0 = []
    ∧ ((get_object_ids (ListResponse.ok 200 (some [42]))).take 20).filterMap
        (fun _ => (get_object_details
          (DetailResponse.ok 200 (some ([] : RawData)))).map
            (extract_record 0)) = [extract_record 0 []]
    ∧ ([extract_record 0 []] : List RawRecord) ≠ [] :=
  ⟨by decide, by decide, by decide⟩

end MetClient
